import Mathlib

/-!
Verification of the giodashboard admin panel's core logic.

Part 1 models the phone-number management in
`src/components/Settings.tsx` (the spec's ExclusiveSelectionManager):
documents of the Firestore collection `adminPhoneGio` carry a `number`
string and an `isActive` flag; `handleAddPhoneNumber` adds an inactive
entry, `handleToggleActive` activates one entry and deactivates the
previously active ones, `handleDeletePhoneNumber` removes an entry.

Part 2 models the beat uploader in the Library component
(`handleAddBeat`): precondition checks, file uploads and the document
written to the `beats` collection.
-/

/-- A document of the `adminPhoneGio` Firestore collection, as read by the
Settings component (interface PhoneNumber in Settings.tsx). -/
structure PhoneNumber where
  id : String
  number : String
  isActive : Bool
deriving DecidableEq, Repr

/-- The per-item conditional update performed inside the `map` of
`handleToggleActive` (Settings.tsx lines 80-90): the item whose id matches
`phoneId` is written `isActive := true`; any other item currently active is
written `isActive := false`; all remaining items receive no write. -/
def activateItem (phoneId : String) (phone : PhoneNumber) : PhoneNumber :=
  if phone.id = phoneId then { phone with isActive := true }
  else if phone.isActive then { phone with isActive := false }
  else phone

/-- State of the collection after a fully-succeeded `handleToggleActive`
call: every issued `updateDoc` completes, so each document ends as
`activateItem` maps it (the in-memory `phoneNumbers` view is the snapshot
of the store the writes are computed from). -/
def handleToggleActive (phoneNumbers : List PhoneNumber) (phoneId : String) :
    List PhoneNumber :=
  phoneNumbers.map (activateItem phoneId)

/-- One Firestore write issued by the Settings component:
`updateDoc(doc(db, "adminPhoneGio", docId), { isActive: value })`. -/
inductive FsWrite where
  | setActive (docId : String) (value : Bool)
deriving DecidableEq, Repr

/-- The list of `updateDoc` writes that one `handleToggleActive(phoneId)`
call issues, one per item of the in-memory list that is either the target
or currently active (Settings.tsx lines 80-90); items that are neither
produce no write. -/
def toggleWrites (phoneNumbers : List PhoneNumber) (phoneId : String) :
    List FsWrite :=
  phoneNumbers.filterMap (fun phone =>
    if phone.id = phoneId then some (FsWrite.setActive phone.id true)
    else if phone.isActive then some (FsWrite.setActive phone.id false)
    else none)

/-- Effect of one `updateDoc` write on the store: the document with the
matching id gets its `isActive` field replaced. -/
def applyWrite (store : List PhoneNumber) (w : FsWrite) : List PhoneNumber :=
  match w with
  | .setActive docId value =>
      store.map (fun p => if p.id = docId then { p with isActive := value } else p)

/-- Apply a list of writes to the store in order. -/
def applyWrites (store : List PhoneNumber) (ws : List FsWrite) :
    List PhoneNumber :=
  ws.foldl applyWrite store

/-- A run of `handleToggleActive(phoneId)` in which each issued write
independently succeeds or fails, described by the success mask `ok`:
the resulting store applies exactly the successful writes, and the run
reports success (the `catch` branch is not taken) iff every issued write
succeeded. Failed writes are not retried and nothing is rolled back. -/
def runActivate (phoneNumbers : List PhoneNumber) (phoneId : String)
    (ok : FsWrite → Bool) : List PhoneNumber × Bool :=
  let ws := toggleWrites phoneNumbers phoneId
  (applyWrites phoneNumbers (ws.filter ok), ws.all ok)

/-- JavaScript `String.prototype.trim()`: remove leading and trailing
whitespace. Defined on the character list so that it evaluates by
reduction. -/
def jsTrim (s : String) : String :=
  String.mk (((s.data.dropWhile Char.isWhitespace).reverse.dropWhile
    Char.isWhitespace).reverse)

/-- `handleAddPhoneNumber` (Settings.tsx lines 62-75): if the pending input
trims to the empty string (`!newPhoneNumber.trim()`) the handler returns at
once (no write, input kept); otherwise `addDoc` appends a document with the
trimmed number and `isActive: false` under a fresh id, and the pending input
is reset to "". Returns the store and the pending-input field after the
call. -/
def handleAddPhoneNumber (store : List PhoneNumber) (newPhoneNumber : String)
    (freshId : String) : List PhoneNumber × String :=
  if jsTrim newPhoneNumber = "" then (store, newPhoneNumber)
  else (store ++ [{ id := freshId, number := jsTrim newPhoneNumber, isActive := false }], "")

/-- `handleDeletePhoneNumber` (Settings.tsx lines 117-126): if the delete
dialog holds no id (`phoneId` is null) the handler returns; otherwise
`deleteDoc` removes the document with that id. -/
def handleDeletePhoneNumber (store : List PhoneNumber) (phoneId : Option String) :
    List PhoneNumber :=
  match phoneId with
  | none => store
  | some i => store.filter (fun p => p.id ≠ i)

lemma activateItem_id (phoneId : String) (p : PhoneNumber) :
    (activateItem phoneId p).id = p.id := by
  unfold activateItem
  split
  · rfl
  · split <;> rfl

lemma activateItem_number (phoneId : String) (p : PhoneNumber) :
    (activateItem phoneId p).number = p.number := by
  unfold activateItem
  split
  · rfl
  · split <;> rfl

lemma activateItem_isActive (phoneId : String) (p : PhoneNumber) :
    (activateItem phoneId p).isActive = decide (p.id = phoneId) := by
  unfold activateItem
  split
  · simp [*]
  · split <;> simp [*]

/-- In a list of items with pairwise distinct ids that contains an item with
id `tid`, the number of items whose id equals `tid` is exactly one. -/
lemma countP_id_eq_one (store : List PhoneNumber) (tid : String)
    (hnd : (store.map PhoneNumber.id).Nodup)
    (hmem : ∃ p ∈ store, p.id = tid) :
    store.countP (fun p => decide (p.id = tid)) = 1 := by
  induction store with
  | nil => simp at hmem
  | cons q qs ih =>
      simp only [List.map_cons, List.nodup_cons] at hnd
      by_cases hq : q.id = tid
      · have hzero : qs.countP (fun p => decide (p.id = tid)) = 0 := by
          rw [List.countP_eq_zero]
          intro p hp
          simp only [decide_eq_true_eq]
          intro hpid
          exact hnd.1 (hq ▸ hpid ▸ List.mem_map_of_mem PhoneNumber.id hp)
        rw [List.countP_cons]
        simp [hq, hzero]
      · obtain ⟨p, hp, hpid⟩ := hmem
        rcases List.mem_cons.mp hp with rfl | hptail
        · exact absurd hpid hq
        · rw [List.countP_cons]
          simp only [hq, decide_eq_true_eq, if_neg]
          have := ih hnd.2 ⟨p, hptail, hpid⟩
          simp [this, hq]

/-- After a fully-succeeded activation, the count of active items equals the
count of items whose id is the target id. -/
lemma countP_handleToggleActive (store : List PhoneNumber) (tid : String) :
    (handleToggleActive store tid).countP (fun p => p.isActive) =
      store.countP (fun p => decide (p.id = tid)) := by
  unfold handleToggleActive
  rw [List.countP_map]
  apply List.countP_congr
  intro p _
  simp [Function.comp, activateItem_isActive]

/-- C1: For every collection with pairwise-distinct document ids containing
an item whose id equals the target id, a fully-succeeded activate call leaves
exactly one item active, and that item is the target; in particular
activate(2) on [{id 1, active}, {id 2, inactive}] yields
[{id 1, inactive}, {id 2, active}]. -/
theorem activate_exactly_one_active :
    (∀ (store : List PhoneNumber) (tid : String),
      (store.map PhoneNumber.id).Nodup →
      (∃ p ∈ store, p.id = tid) →
      (handleToggleActive store tid).countP (fun p => p.isActive) = 1 ∧
        ∀ p ∈ handleToggleActive store tid, p.isActive = true → p.id = tid) ∧
    handleToggleActive
        [⟨"1", "a", true⟩, ⟨"2", "b", false⟩] "2" =
      [⟨"1", "a", false⟩, ⟨"2", "b", true⟩] := by
  constructor
  · intro store tid hnd hmem
    constructor
    · rw [countP_handleToggleActive]
      exact countP_id_eq_one store tid hnd hmem
    · intro p hp hact
      obtain ⟨q, _, rfl⟩ := List.mem_map.mp hp
      have := activateItem_isActive tid q
      rw [hact] at this
      rw [activateItem_id]
      exact of_decide_eq_true this.symm
  · decide

/-- Witness for C1: the general part of `activate_exactly_one_active`
applied to the concrete two-item collection of the spec scenario. -/
theorem activate_exactly_one_active_witness :
    (handleToggleActive [⟨"1", "a", true⟩, ⟨"2", "b", false⟩] "2").countP
      (fun p => p.isActive) = 1 :=
  (activate_exactly_one_active.1 [⟨"1", "a", true⟩, ⟨"2", "b", false⟩] "2"
    (by decide) ⟨⟨"2", "b", false⟩, by decide, rfl⟩).1

/-- Characterization of the writes issued by `handleToggleActive`: each write
comes from an item of the list, is the activation write for the target item,
or the deactivation write for an item that is currently active and not the
target. -/
lemma toggleWrites_spec (store : List PhoneNumber) (tid : String) (w : FsWrite)
    (hw : w ∈ toggleWrites store tid) :
    ∃ phone ∈ store,
      (phone.id = tid ∧ w = FsWrite.setActive phone.id true) ∨
      (phone.id ≠ tid ∧ phone.isActive = true ∧
        w = FsWrite.setActive phone.id false) := by
  obtain ⟨phone, hmem, hf⟩ := List.mem_filterMap.mp hw
  refine ⟨phone, hmem, ?_⟩
  by_cases h1 : phone.id = tid
  · rw [if_pos h1] at hf
    exact Or.inl ⟨h1, (Option.some.inj hf).symm⟩
  · by_cases h2 : phone.isActive = true
    · rw [if_neg h1, if_pos h2] at hf
      exact Or.inr ⟨h1, h2, (Option.some.inj hf).symm⟩
    · rw [if_neg h1, if_neg h2] at hf
      exact Option.noConfusion hf

/-- Applying only deactivation writes creates no active item: every active
item of the result is an untouched item of the original store. -/
lemma applyWrites_active_source (ws : List FsWrite) :
    (∀ w ∈ ws, ∃ i, w = FsWrite.setActive i false) →
    ∀ (store : List PhoneNumber), ∀ p ∈ applyWrites store ws,
      p.isActive = true → p ∈ store := by
  induction ws with
  | nil => intro _ store p hp _; exact hp
  | cons w ws ih =>
      intro h store p hp hact
      have hstep : p ∈ applyWrite store w :=
        ih (fun v hv => h v (List.mem_cons_of_mem w hv)) (applyWrite store w) p hp hact
      obtain ⟨i, rfl⟩ := h w (List.mem_cons_self w ws)
      obtain ⟨q, hq, hqe⟩ := List.mem_map.mp hstep
      by_cases hqi : q.id = i
      · rw [if_pos hqi] at hqe
        rw [← hqe] at hact
        simp at hact
      · rw [if_neg hqi] at hqe
        exact hqe ▸ hq

/-- C2 (amended): when no item of the collection has the target id,
`handleToggleActive` completes without failure — no write to the missing
target is even attempted.  No issued write sets an `isActive` flag to true,
every item active after any run of the call was already an (unmodified)
active item of the original collection, a run without injected write
failures reports success, and on the empty collection any run leaves the
store empty and succeeds. -/
theorem activate_missing_id_no_true_write :
    (∀ (store : List PhoneNumber) (tid : String),
      (∀ p ∈ store, p.id ≠ tid) →
      (∀ i, FsWrite.setActive i true ∉ toggleWrites store tid) ∧
      (∀ (ok : FsWrite → Bool), ∀ p ∈ (runActivate store tid ok).1,
        p.isActive = true → p ∈ store) ∧
      (runActivate store tid (fun _ => true)).2 = true) ∧
    (∀ (tid : String) (ok : FsWrite → Bool), runActivate [] tid ok = ([], true)) := by
  constructor
  · intro store tid hmiss
    have hfalse : ∀ w ∈ toggleWrites store tid, ∃ i, w = FsWrite.setActive i false := by
      intro w hw
      obtain ⟨phone, hmem, hcase⟩ := toggleWrites_spec store tid w hw
      rcases hcase with ⟨hid, _⟩ | ⟨_, _, hw2⟩
      · exact absurd hid (hmiss phone hmem)
      · exact ⟨phone.id, hw2⟩
    refine ⟨?_, ?_, ?_⟩
    · intro i hcon
      obtain ⟨j, hj⟩ := hfalse (FsWrite.setActive i true) hcon
      simp at hj
    · intro ok p hp hact
      exact applyWrites_active_source ((toggleWrites store tid).filter ok)
        (fun w hw => hfalse w (List.mem_of_mem_filter hw)) store p hp hact
    · simp [runActivate]
  · intro tid ok
    rfl

/-- Witness for C2 (amended): activating the id "x" on the one-item
collection [{id 1, active}] issues no activation write, preserves 
active items only from the source, and succeeds. -/
theorem activate_missing_id_no_true_write_witness :
    FsWrite.setActive "x" true ∉ toggleWrites [⟨"1", "a", true⟩] "x" :=
  ((activate_missing_id_no_true_write.1 [⟨"1", "a", true⟩] "x"
    (by decide)).1) "x"

/-- Counterexample to C2 as stated: `activate("x")` on the empty collection
does not fail — the run issues no writes, reports success, and leaves the
collection empty. -/
theorem activate_missing_id_succeeds :
    runActivate [] "x" (fun _ => true) = ([], true) := rfl

/-- C5: whenever some issued per-item write of an activation fails, the
operation reports failure; already-applied deactivations are not rolled
back: on the collection [{id 1, active}, {id 2, inactive}] (exactly one
item active), the run of activate(2) in which only the write to item 2
fails ends with zero items active and reports failure. -/
theorem activate_partial_failure_not_rolled_back :
    (∀ (store : List PhoneNumber) (tid : String) (ok : FsWrite → Bool),
      (∃ w ∈ toggleWrites store tid, ok w = false) →
      (runActivate store tid ok).2 = false) ∧
    (([⟨"1", "a", true⟩, ⟨"2", "b", false⟩] : List PhoneNumber).countP
        (fun p => p.isActive) = 1 ∧
      (runActivate [⟨"1", "a", true⟩, ⟨"2", "b", false⟩] "2"
          (fun w => !decide (w = FsWrite.setActive "2" true))).2 = false ∧
      (runActivate [⟨"1", "a", true⟩, ⟨"2", "b", false⟩] "2"
          (fun w => !decide (w = FsWrite.setActive "2" true))).1.countP
        (fun p => p.isActive) = 0) := by
  constructor
  · intro store tid ok hex
    obtain ⟨w, hw, hok⟩ := hex
    simp only [runActivate]
    rw [Bool.eq_false_iff]
    intro hall
    rw [List.all_eq_true] at hall
    rw [hall w hw] at hok
    exact Bool.true_eq_false ▸ hok
  · exact ⟨by decide, by decide, by decide⟩

/-- Witness for C5: the general failure-reporting part of
`activate_partial_failure_not_rolled_back` applied to the run in which the
activation write to item 2 is the failing write. -/
theorem activate_partial_failure_not_rolled_back_witness :
    (runActivate [⟨"1", "a", true⟩, ⟨"2", "b", false⟩] "2"
        (fun w => !decide (w = FsWrite.setActive "2" true))).2 = false :=
  activate_partial_failure_not_rolled_back.1
    [⟨"1", "a", true⟩, ⟨"2", "b", false⟩] "2"
    (fun w => !decide (w = FsWrite.setActive "2" true))
    ⟨FsWrite.setActive "2" true, by decide, by decide⟩


/-- C3 (amended): for every input value whose trimmed form is non-empty,
add(value) appends exactly one new item, inactive, carrying the trimmed
value; since this holds for every collection, it holds in particular for
collections already containing the value — no uniqueness constraint is
enforced. -/
theorem add_creates_one_inactive_item :
    ∀ (store : List PhoneNumber) (value freshId : String),
      jsTrim value ≠ "" →
      (handleAddPhoneNumber store value freshId).1 =
        store ++ [{ id := freshId, number := jsTrim value, isActive := false }] ∧
      (handleAddPhoneNumber store value freshId).1.length = store.length + 1 := by
  intro store value freshId h
  unfold handleAddPhoneNumber
  rw [if_neg h]
  exact ⟨rfl, by simp⟩

/-- Witness for C3 (amended): adding " 0788 " to a collection that already
holds an item with number "0788" still appends one new inactive item. -/
theorem add_creates_one_inactive_item_witness :
    (handleAddPhoneNumber [⟨"1", "0788", false⟩] " 0788 " "f2").1 =
      [⟨"1", "0788", false⟩] ++ [⟨"f2", jsTrim " 0788 ", false⟩] :=
  (add_creates_one_inactive_item [⟨"1", "0788", false⟩] " 0788 " "f2"
    (by decide)).1

/-- Counterexample to C3 as stated: for the whitespace-only input " ",
add creates no item at all — the guard returns before any write. -/
theorem add_whitespace_creates_no_item :
    (handleAddPhoneNumber [] " " "f").1 = [] ∧
    (handleAddPhoneNumber [] " " "f").1.length ≠
      ([] : List PhoneNumber).length + 1 := by
  exact ⟨by decide, by decide⟩

/-- C9: add with an input trimming to the empty string performs no write and
changes nothing; with any other input, the stored item carries the
whitespace-trimmed value and the pending-input field is reset to "". -/
theorem add_trims_value_and_resets_input :
    ∀ (store : List PhoneNumber) (value freshId : String),
      (jsTrim value = "" →
        handleAddPhoneNumber store value freshId = (store, value)) ∧
      (jsTrim value ≠ "" →
        handleAddPhoneNumber store value freshId =
          (store ++ [{ id := freshId, number := jsTrim value, isActive := false }], "")) := by
  intro store value freshId
  constructor
  · intro h
    unfold handleAddPhoneNumber
    rw [if_pos h]
  · intro h
    unfold handleAddPhoneNumber
    rw [if_neg h]

/-- Witness for C9: the whitespace input "  " leaves the collection and the
pending input unchanged; the input " 078 " stores "078" and resets the
input. -/
theorem add_trims_value_and_resets_input_witness :
    handleAddPhoneNumber [] "  " "f" = ([], "  ") ∧
    handleAddPhoneNumber [] " 078 " "f" =
      ([] ++ [⟨"f", jsTrim " 078 ", false⟩], "") :=
  ⟨(add_trims_value_and_resets_input [] "  " "f").1 (by decide),
   (add_trims_value_and_resets_input [] " 078 " "f").2 (by decide)⟩

lemma activateItem_idem (tid : String) (p : PhoneNumber) :
    activateItem tid (activateItem tid p) = activateItem tid p := by
  by_cases h : p.id = tid <;> by_cases h2 : p.isActive <;>
    simp [activateItem, h, h2]

/-- C8: for every collection containing an item with the target id, applying
a fully-succeeded activate twice yields the same state as applying it
once. -/
theorem activate_idempotent :
    ∀ (store : List PhoneNumber) (tid : String),
      (∃ p ∈ store, p.id = tid) →
      handleToggleActive (handleToggleActive store tid) tid =
        handleToggleActive store tid := by
  intro store tid _
  unfold handleToggleActive
  rw [List.map_map]
  apply List.map_congr_left
  intro p _
  exact activateItem_idem tid p

/-- Witness for C8: double activation of id "2" on a concrete two-item
collection equals single activation. -/
theorem activate_idempotent_witness :
    handleToggleActive
        (handleToggleActive [⟨"1", "a", true⟩, ⟨"2", "b", false⟩] "2") "2" =
      handleToggleActive [⟨"1", "a", true⟩, ⟨"2", "b", false⟩] "2" :=
  activate_idempotent [⟨"1", "a", true⟩, ⟨"2", "b", false⟩] "2"
    ⟨⟨"2", "b", false⟩, by decide, rfl⟩

/-- C4: activation issues writes only to the target and to currently active
items; with distinct document ids, an item that is neither the target nor
active receives no write and is unchanged by the per-item update; the
per-item update never touches `id` or `number`; add leaves every existing
item in place and remove only removes items, so no operation modifies an
item's value or id. -/
theorem activate_frame_effect :
    (∀ (store : List PhoneNumber) (tid : String) (w : FsWrite),
      w ∈ toggleWrites store tid →
      ∀ i b, w = FsWrite.setActive i b →
        i = tid ∨ ∃ p ∈ store, p.id = i ∧ p.isActive = true) ∧
    (∀ (store : List PhoneNumber) (tid : String),
      (store.map PhoneNumber.id).Nodup →
      ∀ p ∈ store, p.id ≠ tid → p.isActive = false →
        (∀ b, FsWrite.setActive p.id b ∉ toggleWrites store tid) ∧
        activateItem tid p = p) ∧
    (∀ (tid : String) (p : PhoneNumber),
      (activateItem tid p).id = p.id ∧ (activateItem tid p).number = p.number) ∧
    (∀ (store : List PhoneNumber) (value freshId : String), ∀ p ∈ store,
      p ∈ (handleAddPhoneNumber store value freshId).1) ∧
    (∀ (store : List PhoneNumber) (phoneId : Option String),
      ∀ p ∈ handleDeletePhoneNumber store phoneId, p ∈ store) := by
  refine ⟨?_, ?_, ?_, ?_, ?_⟩
  · intro store tid w hw i b hib
    obtain ⟨phone, hmem, hcase⟩ := toggleWrites_spec store tid w hw
    rcases hcase with ⟨hid, hwe⟩ | ⟨_, hact, hwe⟩
    · rw [hib] at hwe
      exact Or.inl ((FsWrite.setActive.injEq _ _ _ _ ▸ hwe).1 ▸ hid)
    · rw [hib] at hwe
      exact Or.inr ⟨phone, hmem,
        ((FsWrite.setActive.injEq _ _ _ _ ▸ hwe).1).symm, hact⟩
  · intro store tid hnd p hp hpid hpact
    constructor
    · intro b hcon
      obtain ⟨q, hq, hcase⟩ := toggleWrites_spec store tid
        (FsWrite.setActive p.id b) hcon
      rcases hcase with ⟨hqid, hwe⟩ | ⟨_, hqact, hwe⟩
      · have : p.id = q.id := (FsWrite.setActive.injEq _ _ _ _ ▸ hwe).1
        exact hpid (this ▸ hqid)
      · have hids : p.id = q.id := (FsWrite.setActive.injEq _ _ _ _ ▸ hwe).1
        have : q = p := List.inj_on_of_nodup_map hnd hq hp hids.symm
        rw [this] at hqact
        rw [hqact] at hpact
        exact Bool.true_eq_false ▸ hpact
    · unfold activateItem
      rw [if_neg hpid, if_neg (by simp [hpact])]
  · intro tid p
    exact ⟨activateItem_id tid p, activateItem_number tid p⟩
  · intro store value freshId p hp
    unfold handleAddPhoneNumber
    by_cases h : jsTrim value = ""
    · rw [if_pos h]
      exact hp
    · rw [if_neg h]
      exact List.mem_append_left _ hp
  · intro store phoneId p hp
    cases phoneId with
    | none => exact hp
    | some i => exact List.mem_of_mem_filter hp

/-- Witness for C4: in the three-item collection with item 1 active and
target id "2", the inactive non-target item 3 receives no write and is
left unchanged by the per-item update. -/
theorem activate_frame_effect_witness :
    activateItem "2" ⟨"3", "c", false⟩ = ⟨"3", "c", false⟩ ∧
    FsWrite.setActive "3" false ∉
      toggleWrites [⟨"1", "a", true⟩, ⟨"2", "b", false⟩, ⟨"3", "c", false⟩] "2" := by
  have h := activate_frame_effect.2.1
    [⟨"1", "a", true⟩, ⟨"2", "b", false⟩, ⟨"3", "c", false⟩] "2"
    (by decide) ⟨"3", "c", false⟩ (by decide) (by decide) rfl
  exact ⟨h.2, h.1 false⟩

/-- C7: on every collection in which at most one item is active, the count
of active items stays at most one after add, after remove, and after a
fully-succeeded activate whose target id belongs to an item of the
collection (assuming the collection's document ids are distinct). -/
theorem invariant_at_most_one_active_preserved :
    ∀ (store : List PhoneNumber),
      store.countP (fun p => p.isActive) ≤ 1 →
      (∀ (value freshId : String),
        (handleAddPhoneNumber store value freshId).1.countP
          (fun p => p.isActive) ≤ 1) ∧
      (∀ (phoneId : Option String),
        (handleDeletePhoneNumber store phoneId).countP
          (fun p => p.isActive) ≤ 1) ∧
      (∀ (tid : String),
        (store.map PhoneNumber.id).Nodup →
        (∃ p ∈ store, p.id = tid) →
        (handleToggleActive store tid).countP (fun p => p.isActive) ≤ 1) := by
  intro store hinv
  refine ⟨?_, ?_, ?_⟩
  · intro value freshId
    unfold handleAddPhoneNumber
    by_cases h : jsTrim value = ""
    · rw [if_pos h]
      exact hinv
    · rw [if_neg h]
      rw [List.countP_append]
      simpa using hinv
  · intro phoneId
    cases phoneId with
    | none => exact hinv
    | some i =>
        exact le_trans ((List.filter_sublist store).countP_le _) hinv
  · intro tid hnd hmem
    rw [countP_handleToggleActive, countP_id_eq_one store tid hnd hmem]

/-- Witness for C7: the invariant holds for the singleton active collection
and is preserved by adding "078", by removing id "1", and by activating
id "1". -/
theorem invariant_at_most_one_active_preserved_witness :
    (handleAddPhoneNumber [⟨"1", "a", true⟩] "078" "f").1.countP
      (fun p => p.isActive) ≤ 1 := by
  have h := invariant_at_most_one_active_preserved [⟨"1", "a", true⟩] (by decide)
  exact h.1 "078" "f"

/-- JavaScript `String.prototype.toLowerCase()`, defined on the character
list so that it evaluates by reduction. -/
def jsToLowerCase (s : String) : String :=
  String.mk (s.data.map Char.toLower)

/-- One license type of a beat (interface LicenseType in the Library
component). -/
structure LicenseType where
  type : String
  price : Int
  rights : List String
deriving DecidableEq, Repr

/-- Marker for Firestore `serverTimestamp()` sentinel values. -/
inductive ServerTime where
  | serverTimestamp
deriving DecidableEq, Repr

/-- The `newBeat` form state of the Library component (a Partial Beat):
the fields an administrator fills in before submitting. -/
structure NewBeat where
  title : String
  producerName : String
  genre : String
  tags : List String
  bpm : Int
  price : Int
  licenseTypes : List (String × LicenseType)
  isActive : Bool
  isFeatured : Bool
  searchKeywords : List String
deriving DecidableEq, Repr

/-- The document written to the `beats` Firestore collection by
`handleAddBeat`: the spread of the form state overridden by the computed
fields (urls, counters, timestamps, search keywords). -/
structure StoredBeat where
  title : String
  producerId : String
  producerName : String
  audioUrl : String
  previewUrl : String
  imageUrl : String
  duration : Nat
  genre : String
  tags : List String
  bpm : Int
  price : Int
  licenseTypes : List (String × LicenseType)
  plays : Nat
  purchases : Nat
  likes : Nat
  createdAt : ServerTime
  updatedAt : ServerTime
  isActive : Bool
  isFeatured : Bool
  searchKeywords : List String
deriving DecidableEq, Repr

/-- The inputs one `handleAddBeat` submission depends on: the authenticated
identity (`auth.currentUser`, by uid), the three file inputs (by name; a
file's bytes are opaque to the logic), the `Date.now()` reading used in the
storage paths, and the form state. -/
structure AddBeatInput where
  currentUser : Option String
  audioFile : Option String
  previewFile : Option String
  imageFile : Option String
  now : String
  newBeat : NewBeat
deriving DecidableEq, Repr

/-- Outcome of a `handleAddBeat` submission: rejected for a missing
identity, rejected for a missing required field, or a document created in
the `beats` collection. -/
inductive AddBeatOutcome where
  | rejectedNoAuth
  | rejectedMissingFields
  | created (doc : StoredBeat)
deriving DecidableEq, Repr

/-- `handleAddBeat` of the Library component: reject when
`auth.currentUser` is absent; reject when the audio file, title, genre or
producer name is missing; otherwise upload the audio (and the optional
preview and cover, falling back to the audio url and "" respectively),
compute the lowercased search keywords with empty entries filtered out
(`filter(Boolean)`), and write the beat document with `duration`, `plays`,
`purchases` and `likes` all 0 and server timestamps. An upload's download
url is identified with its storage path. Returns the list of storage paths
uploaded to and the outcome; on a rejection both guards fire before any
upload or write. -/
def handleAddBeat (inp : AddBeatInput) : List String × AddBeatOutcome :=
  match inp.currentUser with
  | none => ([], AddBeatOutcome.rejectedNoAuth)
  | some uid =>
      if inp.audioFile = none ∨ inp.newBeat.title = "" ∨
          inp.newBeat.genre = "" ∨ inp.newBeat.producerName = "" then
        ([], AddBeatOutcome.rejectedMissingFields)
      else
        let audioPath := "beats/" ++ uid ++ "/" ++ inp.now ++ "-full.mp3"
        let previewPath := "beats/" ++ uid ++ "/" ++ inp.now ++ "-preview.mp3"
        let imagePath := "beats/" ++ uid ++ "/" ++ inp.now ++ "-cover.jpg"
        let audioUrl := audioPath
        let previewUrl := match inp.previewFile with
          | some _ => previewPath
          | none => audioUrl
        let imageUrl := match inp.imageFile with
          | some _ => imagePath
          | none => ""
        let searchKeywords :=
          ([jsToLowerCase inp.newBeat.title, jsToLowerCase inp.newBeat.genre,
            jsToLowerCase inp.newBeat.producerName] ++
            inp.newBeat.tags.map jsToLowerCase).filter (fun s => s ≠ "")
        let uploads := [audioPath] ++
          (match inp.previewFile with | some _ => [previewPath] | none => []) ++
          (match inp.imageFile with | some _ => [imagePath] | none => [])
        (uploads, AddBeatOutcome.created {
          title := inp.newBeat.title
          producerId := uid
          producerName := inp.newBeat.producerName
          audioUrl := audioUrl
          previewUrl := previewUrl
          imageUrl := imageUrl
          duration := 0
          genre := inp.newBeat.genre
          tags := inp.newBeat.tags
          bpm := inp.newBeat.bpm
          price := inp.newBeat.price
          licenseTypes := inp.newBeat.licenseTypes
          plays := 0
          purchases := 0
          likes := 0
          createdAt := ServerTime.serverTimestamp
          updatedAt := ServerTime.serverTimestamp
          isActive := inp.newBeat.isActive
          isFeatured := inp.newBeat.isFeatured
          searchKeywords := searchKeywords })

/-- A concrete signed-in submission whose title is empty: used to witness
the precondition rejection. -/
def beatInputMissingTitle : AddBeatInput :=
  { currentUser := some "u1"
    audioFile := some "a.mp3"
    previewFile := none
    imageFile := none
    now := "t0"
    newBeat :=
      { title := ""
        producerName := "P"
        genre := "G"
        tags := []
        bpm := 120
        price := 10
        licenseTypes := []
        isActive := true
        isFeatured := false
        searchKeywords := [] } }

/-- A concrete complete submission: signed in as "u1", audio file present,
tags ["", "Trap"]. -/
def beatInputComplete : AddBeatInput :=
  { currentUser := some "u1"
    audioFile := some "a.mp3"
    previewFile := none
    imageFile := none
    now := "t0"
    newBeat :=
      { title := "My Beat"
        producerName := "DJ X"
        genre := "Hip Hop"
        tags := ["", "Trap"]
        bpm := 120
        price := 10
        licenseTypes := []
        isActive := true
        isFeatured := false
        searchKeywords := [] } }

/-- The document `handleAddBeat` writes for `beatInputComplete`. -/
def beatDocComplete : StoredBeat :=
  { title := "My Beat"
    producerId := "u1"
    producerName := "DJ X"
    audioUrl := "beats/u1/t0-full.mp3"
    previewUrl := "beats/u1/t0-full.mp3"
    imageUrl := ""
    duration := 0
    genre := "Hip Hop"
    tags := ["", "Trap"]
    bpm := 120
    price := 10
    licenseTypes := []
    plays := 0
    purchases := 0
    likes := 0
    createdAt := ServerTime.serverTimestamp
    updatedAt := ServerTime.serverTimestamp
    isActive := true
    isFeatured := false
    searchKeywords := ["my beat", "hip hop", "dj x", "trap"] }

/-- C6: a beat submission with an absent authenticated identity or with a
missing required field (audio file, title, genre, producer name) is
rejected before any effect: no storage path is uploaded to and no `beats`
document is created. -/
theorem add_beat_precondition_rejects_before_effects :
    ∀ (inp : AddBeatInput),
      (inp.currentUser = none ∨ inp.audioFile = none ∨
        inp.newBeat.title = "" ∨ inp.newBeat.genre = "" ∨
        inp.newBeat.producerName = "") →
      (handleAddBeat inp).1 = [] ∧
      ∀ d, (handleAddBeat inp).2 ≠ AddBeatOutcome.created d := by
  intro inp h
  unfold handleAddBeat
  split
  · exact ⟨rfl, fun d h2 => AddBeatOutcome.noConfusion h2⟩
  · rename_i uid huser
    have hfields : inp.audioFile = none ∨ inp.newBeat.title = "" ∨
        inp.newBeat.genre = "" ∨ inp.newBeat.producerName = "" := by
      rcases h with h | h
      · rw [huser] at h
        exact Option.noConfusion h
      · exact h
    rw [if_pos hfields]
    exact ⟨rfl, fun d h2 => AddBeatOutcome.noConfusion h2⟩

/-- Witness for C6: the signed-in submission with an empty title is
rejected: nothing is uploaded. -/
theorem add_beat_precondition_rejects_before_effects_witness :
    (handleAddBeat beatInputMissingTitle).1 = [] :=
  (add_beat_precondition_rejects_before_effects beatInputMissingTitle
    (Or.inr (Or.inr (Or.inl rfl)))).1

/-- C10: every beat document that a submission actually creates has
`plays`, `purchases`, `likes` and `duration` all 0, and its search keywords
are the lowercased title, genre and producer name followed by the lowercased
tags, with empty-string entries filtered out. -/
theorem add_beat_created_doc_fields :
    ∀ (inp : AddBeatInput) (uploads : List String) (d : StoredBeat),
      handleAddBeat inp = (uploads, AddBeatOutcome.created d) →
      d.plays = 0 ∧ d.purchases = 0 ∧ d.likes = 0 ∧ d.duration = 0 ∧
      d.searchKeywords =
        ([jsToLowerCase inp.newBeat.title, jsToLowerCase inp.newBeat.genre,
          jsToLowerCase inp.newBeat.producerName] ++
          inp.newBeat.tags.map jsToLowerCase).filter (fun s => s ≠ "") := by
  intro inp uploads d h
  unfold handleAddBeat at h
  split at h
  · exact absurd (congrArg Prod.snd h) (by simp)
  · split at h
    · exact absurd (congrArg Prod.snd h) (by simp)
    · have h2 := congrArg Prod.snd h
      simp only at h2
      injection h2 with h3
      rw [← h3]
      exact ⟨rfl, rfl, rfl, rfl, rfl⟩

/-- Witness for C10: the complete submission `beatInputComplete` creates
`beatDocComplete`, whose counters are zero and whose keywords are
["my beat", "hip hop", "dj x", "trap"] (the empty tag filtered out). -/
theorem add_beat_created_doc_fields_witness :
    beatDocComplete.plays = 0 ∧ beatDocComplete.purchases = 0 ∧
    beatDocComplete.likes = 0 ∧ beatDocComplete.duration = 0 ∧
    beatDocComplete.searchKeywords =
      ([jsToLowerCase beatInputComplete.newBeat.title,
        jsToLowerCase beatInputComplete.newBeat.genre,
        jsToLowerCase beatInputComplete.newBeat.producerName] ++
        beatInputComplete.newBeat.tags.map jsToLowerCase).filter
        (fun s => s ≠ "") :=
  add_beat_created_doc_fields beatInputComplete ["beats/u1/t0-full.mp3"]
    beatDocComplete (by decide)
